import Mathlib

/-!
Verification of the appointment booking and slot-availability core of the
Hospital-Management-System repository.

The embedding translates the relevant model methods:
  - src/models/appointment.py : Appointment (status lifecycle, double-booking
    check, create_appointment)
  - src/models/doctor.py : Doctor.is_available_on, DoctorAvailability
    (set_doctor_availability, remove_past_availability)
  - src/models/treatment.py : Treatment.create_treatment
  - src/controllers/patient_controller.py : book_appointment date-window checks

The relational store is modelled as explicit lists of rows; SQLAlchemy
query.first() / query.get(pk) become List.find?, query.filter_by(...).all()
becomes List.filter, inserts append a row with a fresh autoincrement id, and
in-place mutation of a fetched row becomes a positional first-match update.
Dates and times are Nat (the code only compares them with the total order).
-/

namespace Hospital

/-- Appointment status: the string enumeration Booked / Completed / Cancelled
of src/models/appointment.py. -/
inductive Status where
  | Booked
  | Completed
  | Cancelled
deriving DecidableEq, Repr

/-- Render a status the way Python interpolates it into messages. -/
def statusString : Status → String
  | Status.Booked => "Booked"
  | Status.Completed => "Completed"
  | Status.Cancelled => "Cancelled"

/-- A row of the appointments table (src/models/appointment.py). -/
structure Appointment where
  id : Nat
  patient_id : Nat
  doctor_id : Nat
  appointment_date : Nat
  appointment_time : Nat
  status : Status
  cancellation_reason : Option String
deriving DecidableEq, Repr

/-- A row of the doctor_availability table (src/models/doctor.py). -/
structure DoctorAvailability where
  id : Nat
  doctor_id : Nat
  available_date : Nat
  start_time : Nat
  end_time : Nat
  is_available : Bool
deriving DecidableEq, Repr

/-- A row of the treatments table (src/models/treatment.py); diagnosis is a
non-null column (nullable=False). -/
structure Treatment where
  id : Nat
  appointment_id : Nat
  diagnosis : String
  prescription : Option String
  notes : Option String
deriving DecidableEq, Repr

/-- The relational store: the tables the booking core touches, plus the
autoincrement counters.  Doctors are represented by their ids (the booking
logic only ever asks whether the row exists). -/
structure DB where
  doctors : List Nat
  appointments : List Appointment
  slots : List DoctorAvailability
  treatments : List Treatment
  next_appointment_id : Nat
  next_slot_id : Nat
  next_treatment_id : Nat
deriving DecidableEq, Repr

def DB.empty : DB := ⟨[], [], [], [], 0, 0, 0⟩

/-- Update the first element satisfying p (SQLAlchemy mutates the single row
returned by query.first() / query.get). -/
def updateFirst (p : α → Bool) (f : α → α) : List α → List α
  | [] => []
  | x :: xs => if p x then f x :: xs else x :: updateFirst p f xs

/-- The filter of Appointment.check_double_booking:
filter_by(doctor_id, appointment_date, appointment_time, status=Booked). -/
def bookedMatch (doctor_id date time : Nat) (a : Appointment) : Bool :=
  decide (a.doctor_id = doctor_id ∧ a.appointment_date = date ∧
          a.appointment_time = time ∧ a.status = Status.Booked)

/-- Appointment.check_double_booking: True if the slot is free, False if a
Booked appointment already occupies (doctor_id, date, time). -/
def check_double_booking (db : DB) (doctor_id date time : Nat) : Bool :=
  (db.appointments.find? (bookedMatch doctor_id date time)).isNone

/-- The filter of Doctor.is_available_on:
filter_by(doctor_id, available_date, is_available=True). -/
def slotMatch (doctor_id date : Nat) (s : DoctorAvailability) : Bool :=
  decide (s.doctor_id = doctor_id ∧ s.available_date = date ∧ s.is_available = true)

/-- Doctor.is_available_on: some available slot for the doctor and date has
start_time <= check_time <= end_time (both bounds inclusive). -/
def is_available_on (db : DB) (doctor_id date time : Nat) : Bool :=
  (db.slots.filter (slotMatch doctor_id date)).any
    (fun s => decide (s.start_time ≤ time ∧ time ≤ s.end_time))

def msg_slot_taken : String :=
  "Doctor is not available at this time. Please choose another time slot."

def msg_not_available : String :=
  "Doctor is not available on this date/time. Please check availability."

def msg_booked_ok : String := "Appointment booked successfully!"

/-- Appointment.create_appointment: double-booking check, then availability
check (skipped when the doctor row does not exist), then insert with status
Booked.  Returns ((success, message, appointment?), updated store). -/
def create_appointment (db : DB) (patient_id doctor_id date time : Nat) :
    (Bool × String × Option Appointment) × DB :=
  if !(check_double_booking db doctor_id date time) then
    ((false, msg_slot_taken, none), db)
  else if ((db.doctors.find? (fun d => decide (d = doctor_id))).isSome
           && !(is_available_on db doctor_id date time)) then
    ((false, msg_not_available, none), db)
  else
    let appt : Appointment :=
      ⟨db.next_appointment_id, patient_id, doctor_id, date, time, Status.Booked, none⟩
    ((true, msg_booked_ok, some appt),
     { db with appointments := db.appointments ++ [appt],
               next_appointment_id := db.next_appointment_id + 1 })

def msg_past_date : String := "Cannot book appointments for past dates."

def msg_window : String := "Can only book appointments within next 7 days."

/-- The booking route of src/controllers/patient_controller.py with the date
and time already parsed: collect the date-window validation errors; when any
error is present the appointment is not created, otherwise delegate to
Appointment.create_appointment. -/
def book_appointment (db : DB) (today patient_id doctor_id date time : Nat) :
    (List String × Option (Bool × String × Option Appointment)) × DB :=
  let errors :=
    (if date < today then [msg_past_date] else []) ++
    (if date > today + 7 then [msg_window] else [])
  if errors.isEmpty then
    let r := create_appointment db patient_id doctor_id date time
    ((errors, some r.1), r.2)
  else
    ((errors, none), db)

/-- Appointment.can_be_cancelled: only a Booked appointment may be cancelled. -/
def can_be_cancelled (a : Appointment) : Bool :=
  decide (a.status = Status.Booked)

/-- Appointment.can_be_completed: only a Booked appointment may be completed. -/
def can_be_completed (a : Appointment) : Bool :=
  decide (a.status = Status.Booked)

/-- Appointment.mark_completed on the row fetched by query.get(id). -/
def mark_completed (db : DB) (appointment_id : Nat) : DB :=
  { db with appointments :=
      (updateFirst (fun a => decide (a.id = appointment_id))
        (fun a => { a with status := Status.Completed }) db.appointments) }

/-- Appointment.mark_cancelled on the row fetched by query.get(id). -/
def mark_cancelled (db : DB) (appointment_id : Nat) (reason : Option String) : DB :=
  { db with appointments :=
      (updateFirst (fun a => decide (a.id = appointment_id))
        (fun a => { a with status := Status.Cancelled, cancellation_reason := reason })
        db.appointments) }

def msg_appt_not_found : String := "Appointment not found."

def msg_cannot_complete (s : Status) : String :=
  "Appointment cannot be completed. Current status: " ++ statusString s

def msg_treatment_exists : String :=
  "Treatment record already exists for this appointment."

def msg_treatment_ok : String := "Treatment record created successfully!"

/-- Treatment.create_treatment: existence check, can_be_completed check,
duplicate-treatment check, then insert the treatment row and mark the
appointment completed. -/
def create_treatment (db : DB) (appointment_id : Nat) (diagnosis : String)
    (prescription notes : Option String) : (Bool × String × Option Treatment) × DB :=
  match db.appointments.find? (fun a => decide (a.id = appointment_id)) with
  | none => ((false, msg_appt_not_found, none), db)
  | some appointment =>
    if !(can_be_completed appointment) then
      ((false, msg_cannot_complete appointment.status, none), db)
    else
      match db.treatments.find? (fun t => decide (t.appointment_id = appointment_id)) with
      | some _ => ((false, msg_treatment_exists, none), db)
      | none =>
        let treatment : Treatment :=
          ⟨db.next_treatment_id, appointment_id, diagnosis, prescription, notes⟩
        let db2 : DB :=
          { db with treatments := db.treatments ++ [treatment],
                    next_treatment_id := db.next_treatment_id + 1 }
        ((true, msg_treatment_ok, some treatment), mark_completed db2 appointment_id)

/-- The filter of DoctorAvailability.set_doctor_availability:
filter_by(doctor_id, available_date, start_time). -/
def availKey (doctor_id date start : Nat) (s : DoctorAvailability) : Bool :=
  decide (s.doctor_id = doctor_id ∧ s.available_date = date ∧ s.start_time = start)

/-- DoctorAvailability.set_doctor_availability: if a slot with the same
(doctor, date, start) exists, overwrite its end time and mark it available;
otherwise insert a new slot. -/
def set_doctor_availability (db : DB) (doctor_id date start_time end_time : Nat) : DB :=
  if (db.slots.find? (availKey doctor_id date start_time)).isSome then
    { db with slots :=
        (updateFirst (availKey doctor_id date start_time)
          (fun s => { s with end_time := end_time, is_available := true }) db.slots) }
  else
    { db with
        slots := db.slots ++ [⟨db.next_slot_id, doctor_id, date, start_time, end_time, true⟩],
        next_slot_id := db.next_slot_id + 1 }

/-- DoctorAvailability.remove_past_availability: delete every slot whose date
is strictly before today. -/
def remove_past_availability (db : DB) (today : Nat) : DB :=
  { db with slots := db.slots.filter (fun s => !(decide (s.available_date < today))) }

/-- One application of a core operation (the admin flow that inserts a doctor
row is included so that reachable stores contain doctors). -/
inductive Step : DB → DB → Prop where
  | book (db : DB) (patient_id doctor_id date time : Nat) :
      Step db (create_appointment db patient_id doctor_id date time).2
  | treat (db : DB) (appointment_id : Nat) (diagnosis : String)
      (prescription notes : Option String) :
      Step db (create_treatment db appointment_id diagnosis prescription notes).2
  | cancel (db : DB) (appointment_id : Nat) (reason : Option String) :
      Step db (mark_cancelled db appointment_id reason)
  | avail (db : DB) (doctor_id date start_time end_time : Nat) :
      Step db (set_doctor_availability db doctor_id date start_time end_time)
  | purge (db : DB) (today : Nat) :
      Step db (remove_past_availability db today)
  | addDoctor (db : DB) (doctor_id : Nat) :
      Step db { db with doctors := db.doctors ++ [doctor_id] }

/-- States reachable from the empty store by the core operations. -/
inductive Reachable : DB → Prop where
  | init : Reachable DB.empty
  | step {db db2 : DB} : Reachable db → Step db db2 → Reachable db2

/-- The Booked appointments occupying a given (doctor, date, time) slot. -/
def bookedFor (db : DB) (doctor_id date time : Nat) : List Appointment :=
  db.appointments.filter (bookedMatch doctor_id date time)

/-- The uniqueness invariant: at most one Booked appointment per slot. -/
def UniqueBooked (db : DB) : Prop :=
  ∀ doctor_id date time, (bookedFor db doctor_id date time).length ≤ 1

/-- The treatment rows referencing a given appointment id. -/
def treatmentsFor (db : DB) (appointment_id : Nat) : List Treatment :=
  db.treatments.filter (fun t => decide (t.appointment_id = appointment_id))

/-- Every Completed appointment has exactly one treatment record. -/
def CompletedHasTreatment (db : DB) : Prop :=
  ∀ a ∈ db.appointments, a.status = Status.Completed →
    (treatmentsFor db a.id).length = 1

/-! ### Helper lemmas about the row-update combinator and projections -/

theorem mem_updateFirst {p : α → Bool} {f : α → α} {l : List α} {y : α}
    (h : y ∈ updateFirst p f l) :
    y ∈ l ∨ ∃ x, x ∈ l ∧ p x = true ∧ y = f x := by
  induction l with
  | nil => simp [updateFirst] at h
  | cons x xs ih =>
    rw [updateFirst] at h
    by_cases hp : p x = true
    · rw [if_pos hp] at h
      rcases List.mem_cons.mp h with h | h
      · exact Or.inr ⟨x, List.mem_cons_self x xs, hp, h⟩
      · exact Or.inl (List.mem_cons_of_mem x h)
    · rw [if_neg hp] at h
      rcases List.mem_cons.mp h with h | h
      · exact Or.inl (h ▸ List.mem_cons_self x xs)
      · rcases ih h with h | ⟨z, hz, hpz, hy⟩
        · exact Or.inl (List.mem_cons_of_mem x h)
        · exact Or.inr ⟨z, List.mem_cons_of_mem x hz, hpz, hy⟩

theorem length_filter_updateFirst_le {p q : α → Bool} {f : α → α}
    (h : ∀ x, q (f x) = true → q x = true) (l : List α) :
    ((updateFirst p f l).filter q).length ≤ (l.filter q).length := by
  induction l with
  | nil => simp [updateFirst]
  | cons x xs ih =>
    rw [updateFirst]
    by_cases hp : p x = true
    · rw [if_pos hp]
      by_cases hq : q (f x) = true
      · rw [List.filter_cons, List.filter_cons, if_pos hq, if_pos (h x hq)]
        simp
      · rw [List.filter_cons, if_neg hq, List.filter_cons]
        split
        · simp [Nat.le_succ_of_le (Nat.le_refl _)]
        · exact Nat.le_refl _
    · rw [if_neg hp, List.filter_cons, List.filter_cons]
      split
      · simpa using ih
      · exact ih

theorem find?_updateFirst {p : α → Bool} {f : α → α}
    (hpres : ∀ x, p (f x) = p x) (l : List α) :
    (updateFirst p f l).find? p = (l.find? p).map f := by
  induction l with
  | nil => simp [updateFirst]
  | cons x xs ih =>
    rw [updateFirst]
    by_cases hp : p x = true
    · rw [if_pos hp, List.find?_cons_of_pos _ ((hpres x).trans hp),
        List.find?_cons_of_pos _ hp]
      rfl
    · rw [if_neg hp, List.find?_cons_of_neg _ (by simpa using hp),
        List.find?_cons_of_neg _ (by simpa using hp)]
      exact ih

theorem filter_not_updateFirst {p : α → Bool} {f : α → α}
    (hpres : ∀ x, p (f x) = p x) (l : List α) :
    (updateFirst p f l).filter (fun x => !(p x)) = l.filter (fun x => !(p x)) := by
  induction l with
  | nil => simp [updateFirst]
  | cons x xs ih =>
    rw [updateFirst]
    by_cases hp : p x = true
    · rw [if_pos hp, List.filter_cons, List.filter_cons]
      rw [hpres x, hp]
      simp
    · rw [if_neg hp, List.filter_cons, List.filter_cons]
      have hx : ¬ p x = true := hp
      simp only [Bool.not_eq_true] at hx
      rw [hx]
      simpa using congrArg (List.cons x) ih

theorem length_filter_updateFirst_eq {p : α → Bool} {f : α → α}
    (hpres : ∀ x, p (f x) = p x) (l : List α) :
    ((updateFirst p f l).filter p).length = (l.filter p).length := by
  induction l with
  | nil => simp [updateFirst]
  | cons x xs ih =>
    rw [updateFirst]
    by_cases hp : p x = true
    · rw [if_pos hp, List.filter_cons, List.filter_cons, hpres x, hp]
      simp
    · rw [if_neg hp, List.filter_cons, List.filter_cons]
      have hx : ¬ p x = true := hp
      simp only [Bool.not_eq_true] at hx
      rw [hx]
      simpa using ih

theorem updateFirst_first_match {p : α → Bool} {f : α → α}
    (_hpres : ∀ x, p (f x) = p x) {l : List α}
    (hdup : (l.filter p).length ≤ 1) {y : α}
    (hy : y ∈ updateFirst p f l) (hpy : p y = true) :
    ∃ x, x ∈ l ∧ p x = true ∧ y = f x := by
  induction l with
  | nil => simp [updateFirst] at hy
  | cons x xs ih =>
    rw [updateFirst] at hy
    by_cases hp : p x = true
    · rw [if_pos hp] at hy
      rcases List.mem_cons.mp hy with h | h
      · exact ⟨x, List.mem_cons_self x xs, hp, h⟩
      · exfalso
        rw [List.filter_cons, if_pos hp] at hdup
        have hnil : xs.filter p = [] := by
          cases hfil : xs.filter p with
          | nil => rfl
          | cons z zs => rw [hfil] at hdup; simp at hdup
        have : y ∈ xs.filter p := List.mem_filter.mpr ⟨h, hpy⟩
        rw [hnil] at this
        simp at this
    · rw [if_neg hp] at hy
      rcases List.mem_cons.mp hy with h | h
      · exact absurd (h ▸ hpy) hp
      · have hdup2 : (xs.filter p).length ≤ 1 := by
          rw [List.filter_cons] at hdup
          split at hdup
          · exact Nat.le_of_succ_le hdup
          · exact hdup
        rcases ih hdup2 h with ⟨z, hz, hpz, hyz⟩
        exact ⟨z, List.mem_cons_of_mem x hz, hpz, hyz⟩

theorem appointments_set_doctor_availability (db : DB)
    (doctor_id date start_time end_time : Nat) :
    (set_doctor_availability db doctor_id date start_time end_time).appointments =
      db.appointments := by
  rw [set_doctor_availability]
  split <;> rfl

theorem treatments_set_doctor_availability (db : DB)
    (doctor_id date start_time end_time : Nat) :
    (set_doctor_availability db doctor_id date start_time end_time).treatments =
      db.treatments := by
  rw [set_doctor_availability]
  split <;> rfl

/-! ### Concrete stores used to witness the claims -/

/-- A store with one doctor (id 7) and one Booked appointment at slot (date 10,
time 1000). -/
def dbBookedSlot : DB :=
  { DB.empty with
      doctors := [7],
      appointments := [⟨0, 1, 7, 10, 1000, Status.Booked, none⟩],
      next_appointment_id := 1 }

/-- A store with one Cancelled appointment (id 0). -/
def dbCancelled : DB :=
  { DB.empty with
      appointments := [⟨0, 1, 7, 10, 1000, Status.Cancelled, some "no show"⟩],
      next_appointment_id := 1 }

/-! ### Claim theorems -/

/-- Claim C8: can_be_completed and can_be_cancelled both hold exactly when the
status is Booked, so a terminal (Completed or Cancelled) appointment can be
neither completed nor cancelled.  Both are pure functions of the status in the
source (a bare comparison, no mutation), which the embedding reflects. -/
theorem can_be_predicates_booked (a : Appointment) :
    (can_be_completed a = true ↔ a.status = Status.Booked) ∧
    (can_be_cancelled a = true ↔ a.status = Status.Booked) ∧
    ((a.status = Status.Completed ∨ a.status = Status.Cancelled) →
      can_be_completed a = false ∧ can_be_cancelled a = false) := by
  refine ⟨by simp [can_be_completed], by simp [can_be_cancelled], ?_⟩
  rintro (h | h) <;> simp [can_be_completed, can_be_cancelled, h]

theorem can_be_predicates_booked_witness :
    can_be_completed ⟨0, 0, 0, 0, 0, Status.Cancelled, none⟩ = false ∧
    can_be_cancelled ⟨0, 0, 0, 0, 0, Status.Cancelled, none⟩ = false :=
  (can_be_predicates_booked ⟨0, 0, 0, 0, 0, Status.Cancelled, none⟩).2.2 (Or.inr rfl)

/-- Claim C2: when a Booked appointment already occupies (doctor, date, time),
create_appointment fails with the slot-taken rejection message of the source
and leaves the store untouched, so nothing is inserted and the existing
appointment is unchanged. -/
theorem create_appointment_rejects_booked_slot (db : DB)
    (patient_id doctor_id date time : Nat) (a : Appointment)
    (ha : a ∈ db.appointments) (hd : a.doctor_id = doctor_id)
    (hdate : a.appointment_date = date) (ht : a.appointment_time = time)
    (hs : a.status = Status.Booked) :
    create_appointment db patient_id doctor_id date time =
      ((false, msg_slot_taken, none), db) := by
  have hb : bookedMatch doctor_id date time a = true := by
    simp [bookedMatch, hd, hdate, ht, hs]
  have hsome : (db.appointments.find? (bookedMatch doctor_id date time)).isSome = true :=
    List.find?_isSome.mpr ⟨a, ha, hb⟩
  have hc : check_double_booking db doctor_id date time = false := by
    rw [check_double_booking]
    cases hfind : db.appointments.find? (bookedMatch doctor_id date time) with
    | none => rw [hfind] at hsome; simp at hsome
    | some x => rfl
  simp [create_appointment, hc]

theorem create_appointment_rejects_booked_slot_witness :
    create_appointment dbBookedSlot 5 7 10 1000 =
      ((false, msg_slot_taken, none), dbBookedSlot) :=
  create_appointment_rejects_booked_slot dbBookedSlot 5 7 10 1000
    ⟨0, 1, 7, 10, 1000, Status.Booked, none⟩ (by decide) rfl rfl rfl rfl

theorem create_treatment_not_booked_result (db : DB) (appointment_id : Nat)
    (diagnosis : String) (prescription notes : Option String) (a : Appointment)
    (hfind : db.appointments.find? (fun x => decide (x.id = appointment_id)) = some a)
    (hs : a.status ≠ Status.Booked) :
    create_treatment db appointment_id diagnosis prescription notes =
      ((false, msg_cannot_complete a.status, none), db) := by
  have hcc : can_be_completed a = false := by
    simp [can_be_completed, hs]
  simp [create_treatment, hfind, hcc]

/-- Claim C4: create_treatment on an appointment whose status is not Booked
(for instance Cancelled) fails with the state-error message and returns the
store unchanged: the appointment keeps all its fields and no treatment row is
inserted. -/
theorem create_treatment_state_error (db : DB) (appointment_id : Nat)
    (diagnosis : String) (prescription notes : Option String) (a : Appointment)
    (hfind : db.appointments.find? (fun x => decide (x.id = appointment_id)) = some a)
    (hs : a.status ≠ Status.Booked) :
    create_treatment db appointment_id diagnosis prescription notes =
      ((false, msg_cannot_complete a.status, none), db) :=
  create_treatment_not_booked_result db appointment_id diagnosis prescription notes a hfind hs

theorem create_treatment_state_error_witness :
    create_treatment dbCancelled 0 "Flu" none none =
      ((false, msg_cannot_complete Status.Cancelled, none), dbCancelled) :=
  create_treatment_state_error dbCancelled 0 "Flu" none none
    ⟨0, 1, 7, 10, 1000, Status.Cancelled, some "no show"⟩ (by decide) (by decide)

/-- Claim C5: a booking request whose date lies strictly before today or
strictly more than 7 days ahead is rejected by the controller with a
window-policy error before create_appointment is ever consulted, so the store
is unchanged whatever the availability. -/
theorem book_appointment_window_rejected (db : DB)
    (today patient_id doctor_id date time : Nat)
    (h : date < today ∨ today + 7 < date) :
    (book_appointment db today patient_id doctor_id date time).2 = db ∧
    (book_appointment db today patient_id doctor_id date time).1.2 = none ∧
    (msg_past_date ∈ (book_appointment db today patient_id doctor_id date time).1.1 ∨
     msg_window ∈ (book_appointment db today patient_id doctor_id date time).1.1) := by
  rcases h with h | h
  · have h2 : ¬ (date > today + 7) := by omega
    simp [book_appointment, h, h2]
  · have h1 : ¬ (date < today) := by omega
    have h2 : date > today + 7 := h
    simp [book_appointment, h1, h2]

theorem book_appointment_window_rejected_witness :
    (book_appointment DB.empty 5 1 7 13 900).2 = DB.empty ∧
    (book_appointment DB.empty 5 1 7 13 900).1.2 = none :=
  ⟨(book_appointment_window_rejected DB.empty 5 1 7 13 900 (Or.inr (by decide))).1,
   (book_appointment_window_rejected DB.empty 5 1 7 13 900 (Or.inr (by decide))).2.1⟩

/-- Claim C10: when no doctor row exists for the requested doctor id and the
slot is free, create_appointment skips the availability check entirely (the
Python condition is doctor AND not available, and the fetched doctor is None)
and proceeds to insert the appointment, returning success rather than a
not-available or not-found rejection. -/
theorem create_appointment_unknown_doctor (db : DB)
    (patient_id doctor_id date time : Nat)
    (hdoc : db.doctors.find? (fun d => decide (d = doctor_id)) = none)
    (hfree : check_double_booking db doctor_id date time = true) :
    create_appointment db patient_id doctor_id date time =
      ((true, msg_booked_ok,
        some ⟨db.next_appointment_id, patient_id, doctor_id, date, time, Status.Booked, none⟩),
       { db with
           appointments := db.appointments ++
             [⟨db.next_appointment_id, patient_id, doctor_id, date, time, Status.Booked, none⟩],
           next_appointment_id := db.next_appointment_id + 1 }) := by
  simp [create_appointment, hfree, hdoc]

theorem create_appointment_unknown_doctor_witness :
    create_appointment DB.empty 1 9 10 1000 =
      ((true, msg_booked_ok, some ⟨0, 1, 9, 10, 1000, Status.Booked, none⟩),
       { DB.empty with
           appointments := [⟨0, 1, 9, 10, 1000, Status.Booked, none⟩],
           next_appointment_id := 1 }) :=
  create_appointment_unknown_doctor DB.empty 1 9 10 1000 rfl rfl

/-! ### Availability lemmas -/

theorem updateFirst_exists {p : α → Bool} {f : α → α} {l : List α}
    (h : ∃ x ∈ l, p x = true) :
    ∃ x, p x = true ∧ f x ∈ updateFirst p f l := by
  induction l with
  | nil => simp at h
  | cons x xs ih =>
    by_cases hp : p x = true
    · exact ⟨x, hp, by rw [updateFirst, if_pos hp]; exact List.mem_cons_self _ _⟩
    · rcases h with ⟨y, hy, hpy⟩
      rcases List.mem_cons.mp hy with rfl | hy2
      · exact absurd hpy hp
      · rcases ih ⟨y, hy2, hpy⟩ with ⟨z, hpz, hz⟩
        exact ⟨z, hpz, by rw [updateFirst, if_neg hp]; exact List.mem_cons_of_mem _ hz⟩

theorem is_available_on_iff (db : DB) (doctor_id date time : Nat) :
    is_available_on db doctor_id date time = true ↔
      ∃ s ∈ db.slots, s.doctor_id = doctor_id ∧ s.available_date = date ∧
        s.is_available = true ∧ s.start_time ≤ time ∧ time ≤ s.end_time := by
  rw [is_available_on, List.any_eq_true]
  constructor
  · rintro ⟨s, hs, hrange⟩
    rw [List.mem_filter] at hs
    rcases hs with ⟨hmem, hmatch⟩
    rw [slotMatch, decide_eq_true_eq] at hmatch
    rw [decide_eq_true_eq] at hrange
    exact ⟨s, hmem, hmatch.1, hmatch.2.1, hmatch.2.2, hrange.1, hrange.2⟩
  · rintro ⟨s, hmem, h1, h2, h3, h4, h5⟩
    refine ⟨s, List.mem_filter.mpr ⟨hmem, ?_⟩, ?_⟩
    · rw [slotMatch, decide_eq_true_eq]; exact ⟨h1, h2, h3⟩
    · rw [decide_eq_true_eq]; exact ⟨h4, h5⟩

theorem slots_set_of_some (db : DB) (d dt st e : Nat)
    (h : (db.slots.find? (availKey d dt st)).isSome = true) :
    (set_doctor_availability db d dt st e).slots =
      updateFirst (availKey d dt st)
        (fun s => { s with end_time := e, is_available := true }) db.slots := by
  rw [set_doctor_availability, if_pos h]

theorem slots_set_of_none (db : DB) (d dt st e : Nat)
    (h : db.slots.find? (availKey d dt st) = none) :
    (set_doctor_availability db d dt st e).slots =
      db.slots ++ [⟨db.next_slot_id, d, dt, st, e, true⟩] := by
  rw [set_doctor_availability, if_neg (by rw [h]; simp)]

theorem availKey_overwrite (d dt st e : Nat) (s : DoctorAvailability) :
    availKey d dt st { s with end_time := e, is_available := true } =
      availKey d dt st s := rfl

theorem set_doctor_availability_mem (db : DB) (doctor_id date start fin : Nat) :
    ∃ s ∈ (set_doctor_availability db doctor_id date start fin).slots,
      s.doctor_id = doctor_id ∧ s.available_date = date ∧ s.start_time = start ∧
      s.end_time = fin ∧ s.is_available = true := by
  cases hfind : db.slots.find? (availKey doctor_id date start) with
  | none =>
    refine ⟨⟨db.next_slot_id, doctor_id, date, start, fin, true⟩, ?_, rfl, rfl, rfl, rfl, rfl⟩
    rw [slots_set_of_none db doctor_id date start fin hfind]
    exact List.mem_append_right _ (List.mem_singleton.mpr rfl)
  | some x =>
    have hsome : (db.slots.find? (availKey doctor_id date start)).isSome = true := by
      rw [hfind]; rfl
    rcases updateFirst_exists
        (f := fun s => { s with end_time := fin, is_available := true })
        (List.find?_isSome.mp hsome) with ⟨z, hpz, hz⟩
    rw [availKey, decide_eq_true_eq] at hpz
    refine ⟨{ z with end_time := fin, is_available := true }, ?_, hpz.1, hpz.2.1, hpz.2.2, rfl, rfl⟩
    rw [slots_set_of_some db doctor_id date start fin hsome]
    exact hz

theorem length_filter_availKey_set (db : DB) (d dt st e : Nat)
    (hdup : (db.slots.filter (availKey d dt st)).length ≤ 1) :
    ((set_doctor_availability db d dt st e).slots.filter (availKey d dt st)).length = 1 := by
  cases hfind : db.slots.find? (availKey d dt st) with
  | none =>
    rw [slots_set_of_none db d dt st e hfind, List.filter_append]
    have hnil : db.slots.filter (availKey d dt st) = [] := by
      rw [List.filter_eq_nil_iff]
      intro a ha
      exact List.find?_eq_none.mp hfind a ha
    rw [hnil]
    simp [availKey]
  | some x =>
    have hsome : (db.slots.find? (availKey d dt st)).isSome = true := by
      rw [hfind]; rfl
    rw [slots_set_of_some db d dt st e hsome,
      length_filter_updateFirst_eq (availKey_overwrite d dt st e)]
    have hx := List.find?_some hfind
    have hmemx := List.mem_of_find?_eq_some hfind
    have hpos : 0 < (db.slots.filter (availKey d dt st)).length :=
      List.length_pos.mpr (fun hemp => by
        have : x ∈ db.slots.filter (availKey d dt st) := List.mem_filter.mpr ⟨hmemx, hx⟩
        rw [hemp] at this
        simp at this)
    omega

/-- Claim C6: is_available_on is true exactly when some available slot of the
doctor and date contains the time with inclusive bounds on both ends; after
set_doctor_availability the whole closed interval of the new slot answers
true, and any time lying outside every slot of the doctor and date answers
false. -/
theorem is_available_on_spec (db : DB) (doctor_id date time : Nat) :
    (is_available_on db doctor_id date time = true ↔
      ∃ s ∈ db.slots, s.doctor_id = doctor_id ∧ s.available_date = date ∧
        s.is_available = true ∧ s.start_time ≤ time ∧ time ≤ s.end_time) ∧
    (∀ start fin, start < fin →
      (∀ t, start ≤ t → t ≤ fin →
        is_available_on (set_doctor_availability db doctor_id date start fin)
          doctor_id date t = true) ∧
      (∀ t,
        (∀ s ∈ (set_doctor_availability db doctor_id date start fin).slots,
           s.doctor_id = doctor_id → s.available_date = date →
           ¬ (s.start_time ≤ t ∧ t ≤ s.end_time)) →
        is_available_on (set_doctor_availability db doctor_id date start fin)
          doctor_id date t = false)) := by
  refine ⟨is_available_on_iff db doctor_id date time, ?_⟩
  intro start fin hlt
  constructor
  · intro t ht1 ht2
    rcases set_doctor_availability_mem db doctor_id date start fin with
      ⟨s, hmem, h1, h2, h3, h4, h5⟩
    exact (is_available_on_iff _ _ _ _).mpr
      ⟨s, hmem, h1, h2, h5, by rw [h3]; exact ht1, by rw [h4]; exact ht2⟩
  · intro t hnone
    cases hb : is_available_on (set_doctor_availability db doctor_id date start fin)
        doctor_id date t with
    | false => rfl
    | true =>
      rcases (is_available_on_iff _ _ _ _).mp hb with ⟨s, hmem, h1, h2, h3, h4, h5⟩
      exact absurd ⟨h4, h5⟩ (hnone s hmem h1 h2)

theorem is_available_on_spec_witness :
    is_available_on (set_doctor_availability DB.empty 1 5 9 13) 1 5 13 = true :=
  ((is_available_on_spec DB.empty 1 5 0).2 9 13 (by decide)).1 13 (by decide) (by decide)

/-- Claim C7: set_doctor_availability is an upsert keyed on (doctor, date,
start): two calls with the same key and different ends leave exactly one slot
for that key, that slot carries the latest end and is marked available, and
slots with other keys are untouched, so availability queries afterward see
only the latest end. -/
theorem set_doctor_availability_upsert (db : DB) (doctor_id date start e1 e2 : Nat)
    (hdup : (db.slots.filter (availKey doctor_id date start)).length ≤ 1)
    (hne : e1 ≠ e2) :
    ((set_doctor_availability (set_doctor_availability db doctor_id date start e1)
        doctor_id date start e2).slots.filter (availKey doctor_id date start)).length = 1 ∧
    (∀ s ∈ (set_doctor_availability (set_doctor_availability db doctor_id date start e1)
        doctor_id date start e2).slots, availKey doctor_id date start s = true →
      s.end_time = e2 ∧ s.is_available = true) ∧
    (set_doctor_availability (set_doctor_availability db doctor_id date start e1)
        doctor_id date start e2).slots.filter
          (fun s => !(availKey doctor_id date start s)) =
      db.slots.filter (fun s => !(availKey doctor_id date start s)) := by
  have hlen1 : (((set_doctor_availability db doctor_id date start e1).slots).filter
      (availKey doctor_id date start)).length = 1 :=
    length_filter_availKey_set db doctor_id date start e1 hdup
  have hlen2 : (((set_doctor_availability (set_doctor_availability db doctor_id date start e1)
      doctor_id date start e2).slots).filter (availKey doctor_id date start)).length = 1 :=
    length_filter_availKey_set _ doctor_id date start e2 hlen1.le
  have hexists1 : ∃ x ∈ (set_doctor_availability db doctor_id date start e1).slots,
      availKey doctor_id date start x = true := by
    rcases List.length_eq_one.mp hlen1 with ⟨y, hy⟩
    have : y ∈ ((set_doctor_availability db doctor_id date start e1).slots).filter
        (availKey doctor_id date start) := by
      rw [hy]; exact List.mem_singleton.mpr rfl
    rw [List.mem_filter] at this
    exact ⟨y, this.1, this.2⟩
  have hsome1 : (((set_doctor_availability db doctor_id date start e1).slots).find?
      (availKey doctor_id date start)).isSome = true :=
    List.find?_isSome.mpr hexists1
  have hslots2 : (set_doctor_availability (set_doctor_availability db doctor_id date start e1)
      doctor_id date start e2).slots =
      updateFirst (availKey doctor_id date start)
        (fun s => { s with end_time := e2, is_available := true })
        (set_doctor_availability db doctor_id date start e1).slots :=
    slots_set_of_some _ doctor_id date start e2 hsome1
  refine ⟨hlen2, ?_, ?_⟩
  · intro s hs hks
    rw [hslots2] at hs
    rcases updateFirst_first_match (availKey_overwrite doctor_id date start e2)
        hlen1.le hs hks with ⟨x, hxmem, hpx, hfx⟩
    rw [hfx]
    exact ⟨rfl, rfl⟩
  · rw [hslots2, filter_not_updateFirst (availKey_overwrite doctor_id date start e2)]
    cases hfind : db.slots.find? (availKey doctor_id date start) with
    | none =>
      rw [slots_set_of_none db doctor_id date start e1 hfind, List.filter_append]
      have hnew : availKey doctor_id date start
          (⟨db.next_slot_id, doctor_id, date, start, e1, true⟩ : DoctorAvailability) = true := by
        rw [availKey, decide_eq_true_eq]
        exact ⟨rfl, rfl, rfl⟩
      simp [hnew]
    | some x =>
      have hsome : (db.slots.find? (availKey doctor_id date start)).isSome = true := by
        rw [hfind]; rfl
      rw [slots_set_of_some db doctor_id date start e1 hsome,
        filter_not_updateFirst (availKey_overwrite doctor_id date start e1)]

theorem set_doctor_availability_upsert_witness :
    ((set_doctor_availability (set_doctor_availability DB.empty 1 5 9 12) 1 5 9 13).slots.filter
        (availKey 1 5 9)).length = 1 :=
  (set_doctor_availability_upsert DB.empty 1 5 9 12 13 (by decide) (by decide)).1

/-! ### Case analysis of the state-changing operations -/

theorem create_appointment_db_cases (db : DB) (patient_id doctor_id date time : Nat) :
    (create_appointment db patient_id doctor_id date time).2 = db ∨
    (check_double_booking db doctor_id date time = true ∧
     (create_appointment db patient_id doctor_id date time).2 =
       { db with
           appointments := db.appointments ++
             [⟨db.next_appointment_id, patient_id, doctor_id, date, time, Status.Booked, none⟩],
           next_appointment_id := db.next_appointment_id + 1 }) := by
  unfold create_appointment
  split_ifs with h1 h2
  · exact Or.inl rfl
  · exact Or.inl rfl
  · refine Or.inr ⟨?_, rfl⟩
    simpa using h1

theorem create_treatment_db_cases (db : DB) (aid : Nat) (diag : String)
    (pr no : Option String) :
    (create_treatment db aid diag pr no).2 = db ∨
    (∃ a, db.appointments.find? (fun x => decide (x.id = aid)) = some a ∧
      a.status = Status.Booked ∧
      db.treatments.find? (fun t => decide (t.appointment_id = aid)) = none ∧
      (create_treatment db aid diag pr no).2 =
        mark_completed
          { db with
              treatments := db.treatments ++ [⟨db.next_treatment_id, aid, diag, pr, no⟩],
              next_treatment_id := db.next_treatment_id + 1 } aid) := by
  unfold create_treatment
  split
  · exact Or.inl rfl
  · next a hfind =>
    split_ifs with hcc
    · exact Or.inl rfl
    · split
      · exact Or.inl rfl
      · next htr =>
        refine Or.inr ⟨a, hfind, ?_, htr, rfl⟩
        have hb : can_be_completed a = true := by
          cases hca : can_be_completed a
          · rw [hca] at hcc; simp at hcc
          · rfl
        rw [can_be_completed, decide_eq_true_eq] at hb
        exact hb

/-! ### Preservation of the booking-uniqueness invariant -/

theorem uniqueBooked_create_appointment (db : DB) (patient_id doctor_id date time : Nat)
    (h : UniqueBooked db) :
    UniqueBooked (create_appointment db patient_id doctor_id date time).2 := by
  rcases create_appointment_db_cases db patient_id doctor_id date time with heq | ⟨hc, heq⟩
  · rw [heq]; exact h
  · rw [heq]
    intro d dt t
    show (List.filter (bookedMatch d dt t)
      (db.appointments ++
        [⟨db.next_appointment_id, patient_id, doctor_id, date, time, Status.Booked, none⟩])).length ≤ 1
    rw [List.filter_append]
    by_cases hm : bookedMatch d dt t
        (⟨db.next_appointment_id, patient_id, doctor_id, date, time, Status.Booked, none⟩ :
          Appointment) = true
    · have htriple : doctor_id = d ∧ date = dt ∧ time = t := by
        rw [bookedMatch, decide_eq_true_eq] at hm
        exact ⟨hm.1, hm.2.1, hm.2.2.1⟩
      rcases htriple with ⟨rfl, rfl, rfl⟩
      have hn : db.appointments.find? (bookedMatch doctor_id date time) = none := by
        rw [check_double_booking] at hc
        exact Option.isNone_iff_eq_none.mp hc
      have hnil : db.appointments.filter (bookedMatch doctor_id date time) = [] := by
        rw [List.filter_eq_nil_iff]
        exact fun a ha => List.find?_eq_none.mp hn a ha
      rw [hnil]
      simp [hm]
    · have hone : List.filter (bookedMatch d dt t)
          [(⟨db.next_appointment_id, patient_id, doctor_id, date, time, Status.Booked, none⟩ :
            Appointment)] = [] := by
        simp only [List.filter_cons, List.filter_nil]
        rw [if_neg hm]
      rw [hone, List.append_nil]
      exact h d dt t

theorem uniqueBooked_mark_cancelled (db : DB) (aid : Nat) (r : Option String)
    (h : UniqueBooked db) : UniqueBooked (mark_cancelled db aid r) := by
  intro d dt t
  refine le_trans ?_ (h d dt t)
  exact length_filter_updateFirst_le
    (fun x hx => by simp [bookedMatch] at hx) db.appointments

theorem uniqueBooked_create_treatment (db : DB) (aid : Nat) (diag : String)
    (pr no : Option String) (h : UniqueBooked db) :
    UniqueBooked (create_treatment db aid diag pr no).2 := by
  rcases create_treatment_db_cases db aid diag pr no with heq | ⟨a0, hfind, hst0, htr, heq⟩
  · rw [heq]; exact h
  · rw [heq]
    intro d dt t
    refine le_trans ?_ (h d dt t)
    exact length_filter_updateFirst_le
      (fun x hx => by simp [bookedMatch] at hx) db.appointments

/-- Claim C1: in every state reachable from the empty store by the core
operations, at most one Booked appointment exists for any
(doctor, date, time) triple: the double-booking pre-check guards every
insertion, and the status transitions only move appointments out of Booked. -/
theorem uniqueBooked_reachable (db : DB) (h : Reachable db) : UniqueBooked db := by
  induction h with
  | init =>
    intro d dt t
    simp [bookedFor, DB.empty]
  | step _ hstep ih =>
    cases hstep with
    | book patient_id doctor_id date time =>
      exact uniqueBooked_create_appointment _ patient_id doctor_id date time ih
    | treat aid diag pr no =>
      exact uniqueBooked_create_treatment _ aid diag pr no ih
    | cancel aid r =>
      exact uniqueBooked_mark_cancelled _ aid r ih
    | avail doctor_id date st et =>
      intro d dt t
      unfold bookedFor
      rw [appointments_set_doctor_availability]
      exact ih d dt t
    | purge today =>
      intro d dt t
      exact ih d dt t
    | addDoctor did =>
      intro d dt t
      exact ih d dt t

theorem uniqueBooked_reachable_witness :
    (bookedFor (create_appointment DB.empty 1 7 10 1000).2 7 10 1000).length ≤ 1 :=
  uniqueBooked_reachable _
    (Reachable.step Reachable.init (Step.book DB.empty 1 7 10 1000)) 7 10 1000

/-! ### Preservation of the completed-implies-treatment invariant -/

theorem completedInv_create_appointment (db : DB) (patient_id doctor_id date time : Nat)
    (h : CompletedHasTreatment db) :
    CompletedHasTreatment (create_appointment db patient_id doctor_id date time).2 := by
  rcases create_appointment_db_cases db patient_id doctor_id date time with heq | ⟨hc, heq⟩
  · rw [heq]; exact h
  · rw [heq]
    intro a ha hst
    rcases List.mem_append.mp ha with ha2 | ha2
    · exact h a ha2 hst
    · rw [List.mem_singleton] at ha2
      rw [ha2] at hst
      simp at hst

theorem completedInv_mark_cancelled (db : DB) (aid : Nat) (r : Option String)
    (h : CompletedHasTreatment db) :
    CompletedHasTreatment (mark_cancelled db aid r) := by
  intro a ha hst
  rcases mem_updateFirst ha with ha2 | ⟨x, hx, hpx, hax⟩
  · exact h a ha2 hst
  · rw [hax] at hst
    simp at hst

theorem completedInv_create_treatment (db : DB) (aid : Nat) (diag : String)
    (pr no : Option String) (h : CompletedHasTreatment db) :
    CompletedHasTreatment (create_treatment db aid diag pr no).2 := by
  rcases create_treatment_db_cases db aid diag pr no with heq | ⟨a0, hfind, hst0, htr, heq⟩
  · rw [heq]; exact h
  · rw [heq]
    intro a ha hst
    have hamem : a ∈ updateFirst (fun x => decide (x.id = aid))
        (fun x => { x with status := Status.Completed }) db.appointments := ha
    show ((db.treatments ++ [(⟨db.next_treatment_id, aid, diag, pr, no⟩ : Treatment)]).filter
        (fun t => decide (t.appointment_id = a.id))).length = 1
    rw [List.filter_append]
    by_cases hid : a.id = aid
    · have hnil : db.treatments.filter (fun t => decide (t.appointment_id = aid)) = [] := by
        rw [List.filter_eq_nil_iff]
        exact fun t ht => List.find?_eq_none.mp htr t ht
      rw [hid, hnil]
      simp
    · rcases mem_updateFirst hamem with ha2 | ⟨x, hx, hpx, hax⟩
      · have hold := h a ha2 hst
        have hsingle : List.filter (fun t => decide (t.appointment_id = a.id))
            [(⟨db.next_treatment_id, aid, diag, pr, no⟩ : Treatment)] = [] := by
          simp only [List.filter_cons, List.filter_nil]
          rw [if_neg (by simpa using fun he => hid he.symm)]
        rw [hsingle, List.append_nil]
        exact hold
      · rw [decide_eq_true_eq] at hpx
        rw [hax] at hid
        exact absurd hpx hid

/-- Claim C9: a Completed status is produced only by the create_treatment
flow, so in every reachable store each Completed appointment has exactly one
treatment row referencing it (and the diagnosis column of a treatment row is
non-null by construction). -/
theorem completed_has_treatment_reachable (db : DB) (h : Reachable db) :
    CompletedHasTreatment db := by
  induction h with
  | init =>
    intro a ha hst
    simp [DB.empty] at ha
  | step _ hstep ih =>
    cases hstep with
    | book patient_id doctor_id date time =>
      exact completedInv_create_appointment _ patient_id doctor_id date time ih
    | treat aid diag pr no =>
      exact completedInv_create_treatment _ aid diag pr no ih
    | cancel aid r =>
      exact completedInv_mark_cancelled _ aid r ih
    | avail doctor_id date st et =>
      intro a ha hst
      rw [appointments_set_doctor_availability] at ha
      unfold treatmentsFor
      rw [treatments_set_doctor_availability]
      exact ih a ha hst
    | purge today =>
      intro a ha hst
      exact ih a ha hst
    | addDoctor did =>
      intro a ha hst
      exact ih a ha hst

theorem completed_has_treatment_reachable_witness :
    (treatmentsFor
      (create_treatment (create_appointment DB.empty 1 7 10 1000).2 0 "Flu" none none).2
      0).length = 1 :=
  completed_has_treatment_reachable _
    (Reachable.step (Reachable.step Reachable.init (Step.book DB.empty 1 7 10 1000))
      (Step.treat _ 0 "Flu" none none))
    ⟨0, 1, 7, 10, 1000, Status.Completed, none⟩ (by decide) rfl

/-! ### Full characterization of create_treatment (claim C3) -/

theorem create_treatment_success (db : DB) (aid : Nat) (diag : String)
    (pr no : Option String) (a : Appointment)
    (hfind : db.appointments.find? (fun x => decide (x.id = aid)) = some a)
    (hst : a.status = Status.Booked)
    (htr : db.treatments.find? (fun t => decide (t.appointment_id = aid)) = none) :
    create_treatment db aid diag pr no =
      ((true, msg_treatment_ok, some ⟨db.next_treatment_id, aid, diag, pr, no⟩),
       mark_completed
        { db with
            treatments := db.treatments ++ [⟨db.next_treatment_id, aid, diag, pr, no⟩],
            next_treatment_id := db.next_treatment_id + 1 } aid) := by
  have hcc : can_be_completed a = true := by
    simp [can_be_completed, hst]
  simp [create_treatment, hfind, hcc, htr]

/-- A store with a single Booked appointment (id 1), used for claim C3. -/
def dbC3 : DB :=
  { DB.empty with
      appointments := [⟨1, 2, 3, 4, 5, Status.Booked, none⟩],
      next_appointment_id := 2 }

/-- Claim C3 counterexample: after a successful create_treatment, a second
call for the same appointment id fails with the state-error message (the
status check runs before the duplicate-treatment check and the appointment is
already Completed), not with the already-exists message the claim states. -/
theorem create_treatment_second_call_message :
    (create_treatment (create_treatment dbC3 1 "Flu" none none).2 1 "Flu" none none).1.1 =
      false ∧
    (create_treatment (create_treatment dbC3 1 "Flu" none none).2 1 "Flu" none none).1.2.1 =
      msg_cannot_complete Status.Completed ∧
    (create_treatment (create_treatment dbC3 1 "Flu" none none).2 1 "Flu" none none).1.2.1 ≠
      msg_treatment_exists := by
  refine ⟨rfl, rfl, ?_⟩
  decide

/-- Claim C3 (amended): create_treatment fails with the not-found message
when no appointment with the id exists, fails with the state-error message
when the appointment is not Booked, fails with the already-exists message
when the appointment is Booked but a treatment already references it;
otherwise it succeeds, inserts exactly one treatment row carrying the given
diagnosis, sets the appointment status to Completed — and a second call for
the same id then fails with the state error for a Completed appointment
(the status check precedes the duplicate-treatment check), leaving the store
unchanged. -/
theorem create_treatment_spec (db : DB) (aid : Nat) (diag : String)
    (pr no : Option String) :
    (db.appointments.find? (fun x => decide (x.id = aid)) = none →
      create_treatment db aid diag pr no = ((false, msg_appt_not_found, none), db)) ∧
    (∀ a, db.appointments.find? (fun x => decide (x.id = aid)) = some a →
      a.status ≠ Status.Booked →
      create_treatment db aid diag pr no = ((false, msg_cannot_complete a.status, none), db)) ∧
    (∀ a, db.appointments.find? (fun x => decide (x.id = aid)) = some a →
      a.status = Status.Booked →
      ∀ t0, db.treatments.find? (fun t => decide (t.appointment_id = aid)) = some t0 →
      create_treatment db aid diag pr no = ((false, msg_treatment_exists, none), db)) ∧
    (∀ a, db.appointments.find? (fun x => decide (x.id = aid)) = some a →
      a.status = Status.Booked →
      db.treatments.find? (fun t => decide (t.appointment_id = aid)) = none →
      ((create_treatment db aid diag pr no).1 =
        (true, msg_treatment_ok, some ⟨db.next_treatment_id, aid, diag, pr, no⟩) ∧
       (create_treatment db aid diag pr no).2.treatments =
        db.treatments ++ [⟨db.next_treatment_id, aid, diag, pr, no⟩] ∧
       (create_treatment db aid diag pr no).2.appointments.find?
          (fun x => decide (x.id = aid)) = some { a with status := Status.Completed } ∧
       (∀ diag2 pr2 no2,
        create_treatment (create_treatment db aid diag pr no).2 aid diag2 pr2 no2 =
          ((false, msg_cannot_complete Status.Completed, none),
           (create_treatment db aid diag pr no).2)))) := by
  refine ⟨?_, ?_, ?_, ?_⟩
  · intro hnone
    simp [create_treatment, hnone]
  · intro a hfind hs
    exact create_treatment_not_booked_result db aid diag pr no a hfind hs
  · intro a hfind hs t0 htr
    have hcc : can_be_completed a = true := by
      simp [can_be_completed, hs]
    simp [create_treatment, hfind, hcc, htr]
  · intro a hfind hs htr
    have hmain := create_treatment_success db aid diag pr no a hfind hs htr
    have hfind2 : (create_treatment db aid diag pr no).2.appointments.find?
        (fun x => decide (x.id = aid)) = some { a with status := Status.Completed } := by
      rw [hmain]
      show (updateFirst (fun x => decide (x.id = aid))
          (fun x => { x with status := Status.Completed }) db.appointments).find?
          (fun x => decide (x.id = aid)) = _
      rw [find?_updateFirst (p := fun x : Appointment => decide (x.id = aid))
        (f := fun x : Appointment => { x with status := Status.Completed })
        (fun x => rfl), hfind]
      rfl
    refine ⟨by rw [hmain], by rw [hmain]; rfl, hfind2, ?_⟩
    intro diag2 pr2 no2
    exact create_treatment_not_booked_result _ aid diag2 pr2 no2
      { a with status := Status.Completed } hfind2 (by simp)

theorem create_treatment_spec_witness :
    (create_treatment dbC3 1 "Flu" none none).1 =
      (true, msg_treatment_ok, some ⟨0, 1, "Flu", none, none⟩) ∧
    create_treatment (create_treatment dbC3 1 "Flu" none none).2 1 "Again" none none =
      ((false, msg_cannot_complete Status.Completed, none),
       (create_treatment dbC3 1 "Flu" none none).2) :=
  let h := (create_treatment_spec dbC3 1 "Flu" none none).2.2.2
    ⟨1, 2, 3, 4, 5, Status.Booked, none⟩ (by decide) rfl (by decide)
  ⟨h.1, h.2.2.2 "Again" none none⟩

end Hospital
